import Mathlib

/-!
Shallow embedding of the support-chat subsystem of src/main.go: the `chats`
and `messages` tables created by `initDB`, the `clients` registry and
`broadcast` fan-out of `handleMessages`, the read loop of
`handleConnections`, and the `CreateChatHandler`, `CloseChatHandler` and
`fetchMessages` request paths.  Time is modelled as a `Nat` server clock;
`CURRENT_TIMESTAMP` stamps the current clock value and the clock only moves
forward.
-/

namespace Goprog

/-- A row of the `chats` table created by `initDB` (src/main.go):
`id SERIAL PRIMARY KEY, user_id TEXT, status TEXT DEFAULT able`.  The status
strings the code uses are `"able"` (open) and `"disable"` (closed). -/
structure ChatRow where
  id : Int
  user_id : String
  status : String
deriving DecidableEq, Repr

/-- The Go `Message` struct (src/main.go): the JSON frame read from and
written to the websocket, and the row shape scanned back from the `messages`
table.  The Go `time.Time` timestamp is a tick count of the server clock. -/
structure Message where
  id : Int
  chatId : Int
  sender : String
  content : String
  timestamp : Nat
deriving DecidableEq, Repr

/-- A live websocket connection.  The server registry (`clients` in
src/main.go) keys only on the handle; `boundChatId` and `role` record the
`chatID` and `role` query parameters of the page that opened the connection
(src/templates/chat.html), which only client-side script ever reads — the
server code never consults them. -/
structure Conn where
  handle : Nat
  boundChatId : Int
  role : String
deriving DecidableEq, Repr

/-- The durable state established by `initDB`, plus the server clock: the
`chats` and `messages` tables in insertion order, the next value of each
SERIAL sequence, and the clock that supplies `CURRENT_TIMESTAMP`. -/
structure DB where
  chats : List ChatRow
  nextChatId : Int
  messages : List Message
  nextMsgId : Int
  clock : Nat
deriving DecidableEq, Repr

/-- The freshly created schema: empty tables, SERIAL sequences at 1. -/
def emptyDB : DB := ⟨[], 1, [], 1, 0⟩

/-- Clock advance between operations: `CURRENT_TIMESTAMP` never moves
backwards. -/
def tick (db : DB) : DB := { db with clock := db.clock + 1 }

/-- Outcome of an INSERT as far as integrity constraints are concerned. -/
inductive InsertResult where
  | ok
  | constraintViolation
deriving DecidableEq, Repr

/-- The statement `INSERT INTO messages (chat_id, sender, content) VALUES
($1,$2,$3)` of `handleConnections`, run against the schema of `initDB`: the
`chat_id INT` column carries no REFERENCES clause, so the insert is never
checked against the `chats` table; the store assigns `id` from the SERIAL
sequence and `timestamp` from `CURRENT_TIMESTAMP`. -/
def insertMessageRow (db : DB) (chat_id : Int) (sender content : String) :
    InsertResult × DB :=
  (InsertResult.ok,
   { db with
      messages := db.messages ++
        [{ id := db.nextMsgId, chatId := chat_id, sender := sender,
           content := content, timestamp := db.clock }],
      nextMsgId := db.nextMsgId + 1 })

/-- The comparison used by `ORDER BY timestamp ASC`. -/
def tsLE (a b : Message) : Prop := a.timestamp ≤ b.timestamp

instance : DecidableRel tsLE := fun a b => Nat.decLe a.timestamp b.timestamp

/-- Strict timestamp order, for stating when `ORDER BY` has no ties. -/
def tsLT (a b : Message) : Prop := a.timestamp < b.timestamp

instance : DecidableRel tsLT := fun a b => Nat.decLt a.timestamp b.timestamp

/-- The query of `fetchMessages` (src/main.go): `SELECT id, chat_id, sender,
content, timestamp FROM messages WHERE chat_id = $1 ORDER BY timestamp ASC`.
SQL fixes the member rows (those with the given chat id) and that the rows
come back in non-decreasing timestamp order, but leaves the relative order
of rows with equal timestamps unspecified, so the query is modelled as a
relation: `out` is a possible result iff it is a permutation of the matching
rows (taken from the table in insertion order) that is sorted by
timestamp. -/
def fetchMessagesResult (db : DB) (chatID : Int) (out : List Message) : Prop :=
  out.Perm (db.messages.filter (fun m => m.chatId == chatID)) ∧
    List.Sorted tsLE out

instance (db : DB) (chatID : Int) (out : List Message) :
    Decidable (fetchMessagesResult db chatID out) := by
  unfold fetchMessagesResult
  infer_instance

/-- Store invariant maintained by the embedding: rows of `messages` carry
non-decreasing timestamps in insertion order, all bounded by the current
clock (every insert stamps the clock and the clock never moves backwards). -/
def WF (db : DB) : Prop :=
  List.Pairwise tsLE db.messages ∧ ∀ m ∈ db.messages, m.timestamp ≤ db.clock

instance (db : DB) : Decidable (WF db) := by
  unfold WF
  infer_instance

/-- The observable outcome written by one of the HTTP handlers. -/
inductive HttpResult where
  | redirect (location : String)
  | badRequest
  | serverError
  | notFound
deriving DecidableEq, Repr

/-- The lookup predicate of `SELECT id FROM chats WHERE user_id = $1 AND
status = able` in `CreateChatHandler`. -/
def ableFor (username : String) (c : ChatRow) : Bool :=
  c.user_id == username && c.status == "able"

/-- `CreateChatHandler` (src/main.go) after the cookie check, given the
username from the `username` cookie: when an able chat already exists for the
user the handler redirects to it, otherwise `INSERT INTO chats (user_id)
VALUES ($1) RETURNING id` creates one (status defaults to able) and the
handler redirects to the new id.  The resolved chat id is returned alongside
the HTTP outcome and the database state. -/
def CreateChatHandler (db : DB) (username : String) : Int × HttpResult × DB :=
  match db.chats.find? (ableFor username) with
  | some c =>
      (c.id, HttpResult.redirect ("/chat?chatID=" ++ toString c.id ++ "&role=user"), db)
  | none =>
      let newId := db.nextChatId
      (newId, HttpResult.redirect ("/chat?chatID=" ++ toString newId ++ "&role=user"),
       { db with
          chats := db.chats ++ [{ id := newId, user_id := username, status := "able" }],
          nextChatId := newId + 1 })

/-- `CloseChatHandler` (src/main.go) after the id parse: `UPDATE chats SET
status = disable WHERE id = $1` followed by a redirect to /admin.  The
handler never inspects the number of rows affected, so an id matching no row
still redirects. -/
def CloseChatHandler (db : DB) (chatID : Int) : HttpResult × DB :=
  (HttpResult.redirect "/admin",
   { db with
      chats := db.chats.map
        (fun c => if c.id == chatID then { c with status := "disable" } else c) })

/-- Registration `clients[ws] = true` on the `clients` map. -/
def registerConn (reg : List Conn) (ws : Conn) : List Conn :=
  if ws ∈ reg then reg else reg ++ [ws]

/-- Removal `delete(clients, ws)` from the `clients` map. -/
def deregisterConn (reg : List Conn) (ws : Conn) : List Conn :=
  reg.filter (fun c => !(c == ws))

/-- One iteration of the `handleMessages` loop (src/main.go): the message
taken from `broadcast` is written with `WriteJSON` to every connection in
`clients`; a failed write (`writeFails` says which writes fail) closes and
deletes that connection and the fan-out continues with the rest.  The
message itself plays no part in recipient selection.  Returns the list of
connections the message was delivered to, in registry order, and the
registry after the fan-out. -/
def handleMessagesStep (clients : List Conn) (writeFails : Conn → Bool)
    (msg : Message) : List Conn × List Conn :=
  match clients with
  | [] => ([], [])
  | c :: rest =>
      let r := handleMessagesStep rest writeFails msg
      if writeFails c then r else (c :: r.1, c :: r.2)

/-- One result of `ws.ReadJSON` in the `handleConnections` loop: either a
decoded frame, tagged with whether the database insert that follows it fails
in the environment, or a read error. -/
inductive ReadEvent where
  | frame (msg : Message) (insertFails : Bool)
  | readError
deriving DecidableEq, Repr

/-- The state one connection handler sees: the shared `clients` registry,
the database, and the sequence of messages submitted to `broadcast` so
far. -/
structure HubState where
  registry : List Conn
  db : DB
  dispatched : List Message
deriving DecidableEq, Repr

/-- How a code path ends with respect to the whole process: `processExit`
models `log.Fatalf` (logrus Fatal exits the process); `continues` means the
goroutine keeps running or returns normally and the process is unaffected. -/
inductive ProcOutcome where
  | processExit
  | continues
deriving DecidableEq, Repr

/-- The body of one `handleConnections` loop iteration for a successfully
decoded frame: the insert is attempted and its error only logged, then the
frame as read is sent to `broadcast` unconditionally. -/
def frameStep (st : HubState) (msg : Message) (insertFails : Bool) : HubState :=
  { st with
     db := if insertFails then st.db
           else (insertMessageRow st.db msg.chatId msg.sender msg.content).2,
     dispatched := st.dispatched ++ [msg] }

/-- The read loop of `handleConnections`: each decoded frame goes through
`frameStep`; the first read error deletes `ws` from `clients` and breaks. -/
def connLoop (ws : Conn) (st : HubState) : List ReadEvent → HubState
  | [] => st
  | ReadEvent.frame msg f :: rest => connLoop ws (frameStep st msg f) rest
  | ReadEvent.readError :: _ => { st with registry := deregisterConn st.registry ws }

/-- `handleConnections` (src/main.go): a failed `upgrader.Upgrade` hits
`log.Fatalf`, which terminates the whole process; otherwise the connection
is registered in `clients` and the read loop consumes the read results of
the connection. -/
def handleConnections (upgradeOk : Bool) (ws : Conn) (events : List ReadEvent)
    (st : HubState) : HubState × ProcOutcome :=
  if upgradeOk then
    (connLoop ws { st with registry := registerConn st.registry ws } events,
     ProcOutcome.continues)
  else
    (st, ProcOutcome.processExit)

/-- The delivery set of one fan-out: exactly the registered connections whose
writes succeed, in registry order. -/
theorem handleMessagesStep_fst (clients : List Conn) (writeFails : Conn → Bool)
    (msg : Message) :
    (handleMessagesStep clients writeFails msg).1 =
      clients.filter (fun c => !writeFails c) := by
  induction clients with
  | nil => rfl
  | cons c rest ih =>
      simp only [handleMessagesStep, List.filter_cons]
      cases h : writeFails c <;> simp [h, ih]

/-- The registry after one fan-out: exactly the connections whose writes
succeeded; connections with failed writes have been deleted. -/
theorem handleMessagesStep_snd (clients : List Conn) (writeFails : Conn → Bool)
    (msg : Message) :
    (handleMessagesStep clients writeFails msg).2 =
      clients.filter (fun c => !writeFails c) := by
  induction clients with
  | nil => rfl
  | cons c rest ih =>
      simp only [handleMessagesStep, List.filter_cons]
      cases h : writeFails c <;> simp [h, ih]

/-- Claim C1, counterexample: dispatch does not restrict delivery to the
staff connections plus the one customer connection of the chat of the
message.  A customer connection whose page is bound to chat 2 receives a
message of chat 1. -/
theorem dispatch_crosses_chat_binding :
    (⟨2, 2, "user"⟩ : Conn) ∈
        (handleMessagesStep [⟨1, 0, "admin"⟩, ⟨2, 2, "user"⟩]
          (fun _ => false) ⟨0, 1, "A", "hello", 0⟩).1 ∧
      (⟨2, 2, "user"⟩ : Conn).boundChatId ≠ (⟨0, 1, "A", "hello", 0⟩ : Message).chatId ∧
      (⟨2, 2, "user"⟩ : Conn).role = "user" := by decide

/-- Claim C1, amended: dispatch delivers the message to every currently
registered connection whose write succeeds — regardless of role and of the
chat the receiving page is bound to — and to no other connection; the
recipient set does not depend on the message at all. -/
theorem dispatch_delivers_to_entire_registry (clients : List Conn)
    (writeFails : Conn → Bool) (m1 m2 : Message) :
    (handleMessagesStep clients writeFails m1).1 =
        clients.filter (fun c => !writeFails c) ∧
      (handleMessagesStep clients writeFails m1).1 =
        (handleMessagesStep clients writeFails m2).1 := by
  refine ⟨handleMessagesStep_fst clients writeFails m1, ?_⟩
  rw [handleMessagesStep_fst, handleMessagesStep_fst]

/-- Claim C8: during one fan-out, a connection whose write fails is
deregistered, while every registered connection whose write succeeds still
receives the message; the fan-out itself always completes. -/
theorem write_failure_isolated (clients : List Conn) (writeFails : Conn → Bool)
    (msg : Message) (c : Conn) (_hc : c ∈ clients) (hf : writeFails c = true) :
    c ∉ (handleMessagesStep clients writeFails msg).2 ∧
      ∀ c' ∈ clients, writeFails c' = false →
        c' ∈ (handleMessagesStep clients writeFails msg).1 := by
  constructor
  · rw [handleMessagesStep_snd]
    intro hmem
    rw [List.mem_filter] at hmem
    simp [hf] at hmem
  · intro c' hc' hw
    rw [handleMessagesStep_fst, List.mem_filter]
    exact ⟨hc', by simp [hw]⟩

/-- Claim C8, witness at a three-connection registry where the write to the
second staff connection fails. -/
theorem write_failure_isolated_witness :
    (⟨2, 0, "admin"⟩ : Conn) ∈ [(⟨1, 0, "admin"⟩ : Conn), ⟨2, 0, "admin"⟩, ⟨3, 0, "admin"⟩] ∧
      (fun c : Conn => c.handle == 2) ⟨2, 0, "admin"⟩ = true ∧
      (⟨2, 0, "admin"⟩ : Conn) ∉
        (handleMessagesStep [⟨1, 0, "admin"⟩, ⟨2, 0, "admin"⟩, ⟨3, 0, "admin"⟩]
          (fun c => c.handle == 2) ⟨0, 1, "A", "hi", 0⟩).2 ∧
      (⟨3, 0, "admin"⟩ : Conn) ∈
        (handleMessagesStep [⟨1, 0, "admin"⟩, ⟨2, 0, "admin"⟩, ⟨3, 0, "admin"⟩]
          (fun c => c.handle == 2) ⟨0, 1, "A", "hi", 0⟩).1 :=
  ⟨by decide, by decide,
   (write_failure_isolated _ _ _ _ (by decide) (by decide)).1,
   (write_failure_isolated [⟨1, 0, "admin"⟩, ⟨2, 0, "admin"⟩, ⟨3, 0, "admin"⟩]
      (fun c => c.handle == 2) ⟨0, 1, "A", "hi", 0⟩ ⟨2, 0, "admin"⟩
      (by decide) (by decide)).2 ⟨3, 0, "admin"⟩ (by decide) (by decide)⟩

/-- Claim C10: the sending connection, when still registered and writable,
also receives the message back — the recipient set is the whole registry,
originator included. -/
theorem sender_receives_own_message (clients : List Conn) (writeFails : Conn → Bool)
    (msg : Message) (sender : Conn) (hs : sender ∈ clients)
    (hw : writeFails sender = false) :
    sender ∈ (handleMessagesStep clients writeFails msg).1 := by
  rw [handleMessagesStep_fst, List.mem_filter]
  exact ⟨hs, by simp [hw]⟩

/-- Claim C10, witness: the customer connection that sent the frame is in
the registry and gets the message delivered back to it. -/
theorem sender_receives_own_message_witness :
    (⟨1, 1, "user"⟩ : Conn) ∈ [(⟨1, 1, "user"⟩ : Conn), ⟨2, 0, "admin"⟩] ∧
      (fun _ : Conn => false) ⟨1, 1, "user"⟩ = false ∧
      (⟨1, 1, "user"⟩ : Conn) ∈
        (handleMessagesStep [⟨1, 1, "user"⟩, ⟨2, 0, "admin"⟩]
          (fun _ => false) ⟨0, 1, "A", "hi", 0⟩).1 :=
  ⟨by decide, by decide,
   sender_receives_own_message [⟨1, 1, "user"⟩, ⟨2, 0, "admin"⟩] (fun _ => false)
     ⟨0, 1, "A", "hi", 0⟩ ⟨1, 1, "user"⟩ (by decide) (by decide)⟩

/-- Claim C2, counterexample: a whitespace-only frame is not discarded.
Processing the frame with content two spaces persists one message row and
submits the frame to `broadcast`. -/
theorem whitespace_frame_not_discarded :
    (frameStep ⟨[⟨1, 1, "user"⟩], emptyDB, []⟩ ⟨0, 1, "A", "  ", 0⟩ false).db.messages =
        [⟨1, 1, "A", "  ", 0⟩] ∧
      (frameStep ⟨[⟨1, 1, "user"⟩], emptyDB, []⟩ ⟨0, 1, "A", "  ", 0⟩ false).dispatched =
        [⟨0, 1, "A", "  ", 0⟩] ∧
      (⟨0, 1, "A", "  ", 0⟩ : Message).content = "  " := by decide

/-- Claim C2, amended: the read loop applies no content validation — every
successfully decoded frame, an empty or whitespace-only one included, is
persisted (when the insert succeeds) and dispatched, and the connection
stays registered while the loop continues with the remaining events. -/
theorem every_frame_persisted_and_dispatched (st : HubState) (ws : Conn)
    (msg : Message) (rest : List ReadEvent) :
    connLoop ws st (ReadEvent.frame msg false :: rest) =
        connLoop ws (frameStep st msg false) rest ∧
      (frameStep st msg false).dispatched = st.dispatched ++ [msg] ∧
      (frameStep st msg false).db.messages = st.db.messages ++
        [⟨st.db.nextMsgId, msg.chatId, msg.sender, msg.content, st.db.clock⟩] ∧
      (frameStep st msg false).registry = st.registry :=
  ⟨rfl, rfl, rfl, rfl⟩

/-- Claim C9: the frame is submitted to `broadcast` whether or not the
database insert succeeded, and a failed insert leaves the database unchanged
while the frame is dispatched anyway. -/
theorem dispatch_regardless_of_insert (st : HubState) (msg : Message)
    (insertFails : Bool) :
    (frameStep st msg insertFails).dispatched = st.dispatched ++ [msg] ∧
      (frameStep st msg true).db = st.db := by
  cases insertFails <;> exact ⟨rfl, rfl⟩

/-- Claim C7, counterexample: an error during connection admission is fatal
to the process — a failed websocket upgrade runs `log.Fatalf`, which calls
os.Exit. -/
theorem upgrade_error_exits_process :
    (handleConnections false ⟨1, 1, "user"⟩ [] ⟨[], emptyDB, []⟩).2 =
      ProcOutcome.processExit := by decide

/-- Claim C7, amended: the failed upgrade is the only fatal path of the
connection handler — once the connection is accepted, no sequence of read
errors, insert failures, or decoded frames makes the process exit. -/
theorem only_upgrade_error_is_fatal (upgradeOk : Bool) (ws : Conn)
    (events : List ReadEvent) (st : HubState) :
    (handleConnections upgradeOk ws events st).2 = ProcOutcome.processExit ↔
      upgradeOk = false := by
  cases upgradeOk <;> simp [handleConnections]

/-- Claim C3: chat creation is an idempotent resume.  When an able (open)
chat already exists for the user, the handler returns the id of such an
existing chat and leaves the database unchanged; and a second call
immediately after any first call returns the same chat id as the first. -/
theorem createOrResume_idempotent (db : DB) (u : String) :
    ((∃ c ∈ db.chats, ableFor u c = true) →
        (CreateChatHandler db u).2.2 = db ∧
          ∃ c ∈ db.chats, ableFor u c = true ∧ (CreateChatHandler db u).1 = c.id) ∧
      (CreateChatHandler (CreateChatHandler db u).2.2 u).1 =
        (CreateChatHandler db u).1 := by
  constructor
  · intro h
    cases hfind : db.chats.find? (ableFor u) with
    | none =>
        rw [List.find?_eq_none] at hfind
        obtain ⟨c, hc, hp⟩ := h
        exact absurd hp (by simpa using hfind c hc)
    | some c =>
        refine ⟨by simp [CreateChatHandler, hfind],
          c, List.mem_of_find?_eq_some hfind, List.find?_some hfind, ?_⟩
        simp [CreateChatHandler, hfind]
  · cases hfind : db.chats.find? (ableFor u) with
    | some c => simp [CreateChatHandler, hfind]
    | none =>
        have hnew : List.find? (ableFor u)
            (db.chats ++ [{ id := db.nextChatId, user_id := u, status := "able" }]) =
            some { id := db.nextChatId, user_id := u, status := "able" } := by
          rw [List.find?_append, hfind]
          simp [List.find?, ableFor]
        simp [CreateChatHandler, hfind, hnew]

/-- Claim C3, witness at a database holding an able chat for user A. -/
theorem createOrResume_idempotent_witness :
    (∃ c ∈ (⟨[⟨1, "A", "able"⟩], 2, [], 1, 0⟩ : DB).chats, ableFor "A" c = true) ∧
      ((CreateChatHandler ⟨[⟨1, "A", "able"⟩], 2, [], 1, 0⟩ "A").2.2 =
          (⟨[⟨1, "A", "able"⟩], 2, [], 1, 0⟩ : DB) ∧
        ∃ c ∈ (⟨[⟨1, "A", "able"⟩], 2, [], 1, 0⟩ : DB).chats, ableFor "A" c = true ∧
          (CreateChatHandler ⟨[⟨1, "A", "able"⟩], 2, [], 1, 0⟩ "A").1 = c.id) :=
  ⟨by decide,
   (createOrResume_idempotent ⟨[⟨1, "A", "able"⟩], 2, [], 1, 0⟩ "A").1 (by decide)⟩

/-- Claim C4, counterexample: closing a chat id that does not exist does not
fail with NotFound — on the empty database, closing id 7 succeeds with the
usual redirect to /admin. -/
theorem close_unknown_chat_not_notfound :
    emptyDB.chats = [] ∧
      (CloseChatHandler emptyDB 7).1 = HttpResult.redirect "/admin" ∧
      (CloseChatHandler emptyDB 7).1 ≠ HttpResult.notFound := by decide

/-- Claim C4, amended: close never reports NotFound — for every database and
chat id it responds with the redirect, closing twice equals closing once (the
second call is a no-op on the state), and after a close every chat row with
that id has status disable (closed). -/
theorem close_idempotent_never_notfound (db : DB) (chatID : Int) :
    (CloseChatHandler db chatID).1 = HttpResult.redirect "/admin" ∧
      CloseChatHandler (CloseChatHandler db chatID).2 chatID =
        CloseChatHandler db chatID ∧
      ∀ c ∈ (CloseChatHandler db chatID).2.chats, c.id = chatID →
        c.status = "disable" := by
  refine ⟨rfl, ?_, ?_⟩
  · simp only [CloseChatHandler, Prod.mk.injEq, true_and]
    congr 1
    rw [List.map_map]
    refine List.map_congr_left (fun a _ => ?_)
    simp only [Function.comp_apply]
    cases h : a.id == chatID <;> simp [h]
  · intro c hc hid
    simp only [CloseChatHandler] at hc
    rw [List.mem_map] at hc
    obtain ⟨a, _, rfl⟩ := hc
    by_cases h : a.id = chatID
    · simp [h]
    · simp [h] at hid

/-- Claim C4, witness: closing the one able chat of a concrete database
leaves it with status disable, and the theorem applies to it. -/
theorem close_idempotent_never_notfound_witness :
    (⟨1, "A", "disable"⟩ : ChatRow) ∈
        (CloseChatHandler ⟨[⟨1, "A", "able"⟩], 2, [], 1, 0⟩ 1).2.chats ∧
      (⟨1, "A", "disable"⟩ : ChatRow).id = 1 ∧
      (⟨1, "A", "disable"⟩ : ChatRow).status = "disable" :=
  ⟨by decide, by decide,
   (close_idempotent_never_notfound ⟨[⟨1, "A", "able"⟩], 2, [], 1, 0⟩ 1).2.2
     ⟨1, "A", "disable"⟩ (by decide) (by decide)⟩

/-- Claim C5, counterexample: the schema of `initDB` declares no foreign key
from messages.chat_id to chats.id, so appending a message whose chat id
references no existing chat succeeds and inserts the row — here on the empty
database, which has no chats at all. -/
theorem append_orphan_chat_succeeds :
    emptyDB.chats = [] ∧
      (insertMessageRow emptyDB 42 "A" "hi").1 = InsertResult.ok ∧
      (insertMessageRow emptyDB 42 "A" "hi").2.messages = [⟨1, 42, "A", "hi", 0⟩] := by
  decide

/-- Claim C5, amended: the message append never fails with a constraint
violation and always inserts the row, whether or not the chat id references
an existing chat. -/
theorem append_never_constraint_violation (db : DB) (chat_id : Int)
    (sender content : String) :
    (insertMessageRow db chat_id sender content).1 = InsertResult.ok ∧
      (insertMessageRow db chat_id sender content).2.messages =
        db.messages ++ [⟨db.nextMsgId, chat_id, sender, content, db.clock⟩] :=
  ⟨rfl, rfl⟩

/-- Appending a message preserves the store invariant: the new row is
stamped with the current clock, which bounds every earlier timestamp. -/
theorem insertMessageRow_WF (db : DB) (chat_id : Int) (sender content : String)
    (h : WF db) : WF (insertMessageRow db chat_id sender content).2 := by
  obtain ⟨hsort, hbound⟩ := h
  constructor
  · simp only [insertMessageRow]
    rw [List.pairwise_append]
    refine ⟨hsort, List.pairwise_singleton _ _, fun a ha b hb => ?_⟩
    simp only [List.mem_singleton] at hb
    subst hb
    exact hbound a ha
  · intro m hm
    simp only [insertMessageRow, List.mem_append, List.mem_singleton] at hm
    cases hm with
    | inl hmem => exact hbound m hmem
    | inr hnew => subst hnew; exact le_refl _

/-- Advancing the clock preserves the store invariant. -/
theorem tick_WF (db : DB) (h : WF db) : WF (tick db) :=
  ⟨h.1, fun m hm => Nat.le_succ_of_le (h.2 m hm)⟩

/-- A non-decreasing-sorted permutation of a strictly increasing list is that
list itself: with no timestamp ties there is only one sorted order. -/
theorem sorted_perm_eq_of_strict (r : List Message) :
    ∀ out : List Message, out.Perm r → List.Sorted tsLE out →
      List.Pairwise tsLT r → out = r := by
  induction r with
  | nil =>
      intro out hp _ _
      simpa using hp.eq_nil
  | cons a r2 ih =>
      intro out hp hs hr
      cases out with
      | nil =>
          have hlen := hp.length_eq
          simp at hlen
      | cons h t =>
          rcases List.mem_cons.mp (hp.mem_iff.mp (List.mem_cons_self h t)) with heq | hmem
          · subst heq
            rw [ih t hp.cons_inv (List.Sorted.of_cons hs) (List.Pairwise.of_cons hr)]
          · exfalso
            have halt : tsLT a h := (List.pairwise_cons.mp hr).1 h hmem
            rcases List.mem_cons.mp (hp.mem_iff.mpr (List.mem_cons_self a r2)) with haeq | hat
            · rw [haeq] at halt
              exact Nat.lt_irrefl _ halt
            · have hle : tsLE h a := (List.pairwise_cons.mp hs).1 a hat
              exact Nat.lt_irrefl _ (Nat.lt_of_lt_of_le halt hle)

/-- Claim C6, counterexample: history retrieval does not always equal append
order.  Two frames processed in the same clock tick by the read loop stamp
equal timestamps (`frameStep` on a concrete hub state shows the two rows),
and for that table the query contract admits a result in reversed append
order, since ORDER BY leaves equal-timestamp rows in no specified order. -/
theorem fetchMessages_tie_breaks_append_order :
    (frameStep (frameStep ⟨[⟨1, 1, "user"⟩], ⟨[⟨1, "A", "able"⟩], 2, [], 1, 0⟩, []⟩
          ⟨0, 1, "A", "first", 0⟩ false) ⟨0, 1, "A", "second", 0⟩ false).db.messages =
        [⟨1, 1, "A", "first", 0⟩, ⟨2, 1, "A", "second", 0⟩] ∧
      WF ⟨[⟨1, "A", "able"⟩], 2, [⟨1, 1, "A", "first", 0⟩, ⟨2, 1, "A", "second", 0⟩], 3, 0⟩ ∧
      fetchMessagesResult ⟨[⟨1, "A", "able"⟩], 2,
          [⟨1, 1, "A", "first", 0⟩, ⟨2, 1, "A", "second", 0⟩], 3, 0⟩ 1
        [⟨2, 1, "A", "second", 0⟩, ⟨1, 1, "A", "first", 0⟩] ∧
      [(⟨2, 1, "A", "second", 0⟩ : Message), ⟨1, 1, "A", "first", 0⟩] ≠
        (⟨[⟨1, "A", "able"⟩], 2, [⟨1, 1, "A", "first", 0⟩, ⟨2, 1, "A", "second", 0⟩], 3,
            0⟩ : DB).messages.filter (fun m => m.chatId == 1) := by
  decide

/-- Claim C6, amended: every possible result of history retrieval holds
exactly the messages of the chat, in non-decreasing timestamp order; when
the timestamps within the chat are strictly increasing the result is unique
and equals append order, while the relative order of equal-timestamp
messages (which arise when one chat receives two messages in one clock
tick) is left unspecified by the query. -/
theorem fetchMessages_order_up_to_ties (db : DB) (chatID : Int)
    (out : List Message) (hout : fetchMessagesResult db chatID out) :
    (∀ m, m ∈ out ↔ m ∈ db.messages ∧ m.chatId = chatID) ∧
      List.Sorted tsLE out ∧
      (List.Pairwise tsLT (db.messages.filter (fun m => m.chatId == chatID)) →
        out = db.messages.filter (fun m => m.chatId == chatID)) := by
  obtain ⟨hperm, hsort⟩ := hout
  refine ⟨?_, hsort, ?_⟩
  · intro m
    rw [hperm.mem_iff, List.mem_filter]
    simp
  · intro hstrict
    exact sorted_perm_eq_of_strict _ out hperm hsort hstrict

/-- Claim C6, witness at a three-message log spanning two chats with
strictly increasing timestamps: the only possible result for chat 1 is its
two messages in append order. -/
theorem fetchMessages_order_up_to_ties_witness :
    fetchMessagesResult ⟨[⟨1, "A", "able"⟩, ⟨2, "B", "able"⟩], 3,
        [⟨1, 1, "A", "hi", 0⟩, ⟨2, 2, "B", "yo", 1⟩, ⟨3, 1, "admin", "hello", 2⟩], 4, 3⟩ 1
      [⟨1, 1, "A", "hi", 0⟩, ⟨3, 1, "admin", "hello", 2⟩] ∧
      List.Pairwise tsLT ((⟨[⟨1, "A", "able"⟩, ⟨2, "B", "able"⟩], 3,
          [⟨1, 1, "A", "hi", 0⟩, ⟨2, 2, "B", "yo", 1⟩, ⟨3, 1, "admin", "hello", 2⟩], 4,
          3⟩ : DB).messages.filter (fun m => m.chatId == 1)) ∧
      [(⟨1, 1, "A", "hi", 0⟩ : Message), ⟨3, 1, "admin", "hello", 2⟩] =
        (⟨[⟨1, "A", "able"⟩, ⟨2, "B", "able"⟩], 3,
          [⟨1, 1, "A", "hi", 0⟩, ⟨2, 2, "B", "yo", 1⟩, ⟨3, 1, "admin", "hello", 2⟩], 4,
          3⟩ : DB).messages.filter (fun m => m.chatId == 1) :=
  ⟨by decide, by decide,
   (fetchMessages_order_up_to_ties ⟨[⟨1, "A", "able"⟩, ⟨2, "B", "able"⟩], 3,
      [⟨1, 1, "A", "hi", 0⟩, ⟨2, 2, "B", "yo", 1⟩, ⟨3, 1, "admin", "hello", 2⟩], 4, 3⟩ 1
      [⟨1, 1, "A", "hi", 0⟩, ⟨3, 1, "admin", "hello", 2⟩] (by decide)).2.2 (by decide)⟩

end Goprog
